import Mathlib

/-!
# Verification of the dapp secure-sync core

Shallow embedding of the claim-relevant parts of the repository:

* `EncryptionService` (src/shared/services/EncryptionService.ts): X25519 key
  agreement via tweetnacl's `nacl.box.before`, AES-256-GCM encryption and
  decryption via WebCrypto `crypto.subtle`, splitting the GCM output into a
  ciphertext and a 16-byte tag.
* `SQLiteService` (src/shared/services/SQLiteService.ts): the `communities`
  and `community_posts` tables with `INSERT OR REPLACE` upserts and the
  `ON DELETE CASCADE` foreign key.
* `SocketService` (src/shared/services/socketService.ts): connection state,
  room membership, join/leave/send operations, pause, and the reconnect
  rejoin loop.
* `BackgroundSyncTask` (src/shared/background/BackgroundSyncTask.ts): the
  per-item catch-up step that decrypts a fetched item and upserts it into
  the cache, skipping the item on decryption failure.
* `ConversationScreen.initializeSeekerKeyPair`: the load-or-create protocol
  for the local X25519 agreement key pair over `expo-secure-store`.

Representation choices: byte strings (`Uint8Array`) are `List Nat`; JS
strings that only travel through `TextEncoder`/`TextDecoder` or base64
`encode`/`decode` are represented by the byte lists they encode to, since
those codecs are mutually inverse bijections supplied by platform libraries.
-/

namespace Dapp

/-- Byte strings (`Uint8Array` values) are lists of naturals. -/
abbrev Bytes := List Nat

/-! ## CryptoEngine primitives

The WebCrypto AES-GCM implementation and tweetnacl's X25519 are platform
libraries, not repository code; they are modelled from the spec's contract
for them (deterministic keyed encryption with a deterministic 16-byte
authentication tag over the ciphertext, checked on decryption; commutative
Diffie-Hellman key agreement). The repository code built on top of them
(`EncryptionService.encrypt` / `decrypt` and their callers) is embedded
from the source.
-/

/-- Modelled from the spec: the AES-CTR keystream inside AES-GCM.  A
deterministic byte derived from the key, the IV and the byte position;
the concrete mixing function is irrelevant to the claims, which only use
that it is a function of `(key, iv, i)`. -/
def keystreamByte (key iv : Bytes) (i : Nat) : Nat :=
  (key.foldl (fun a b => a * 31 + b) 7 +
   iv.foldl (fun a b => a * 37 + b) 11 + i * 131) % 256

/-- XOR a byte list against the keystream starting at position `i`
(the CTR layer of AES-GCM; self-inverse). -/
def ctrXorFrom (key iv : Bytes) (i : Nat) : Bytes → Bytes
  | [] => []
  | b :: bs => (b ^^^ keystreamByte key iv i) :: ctrXorFrom key iv (i + 1) bs

/-- CTR encryption/decryption of a whole buffer. -/
def ctrXor (key iv : Bytes) (data : Bytes) : Bytes :=
  ctrXorFrom key iv 0 data

/-- Modelled from the spec: the 16-byte GCM authentication tag, a
deterministic function of the key, the IV and the ciphertext (GHASH
followed by encryption of the tag block).  Any envelope whose tag differs
from this value fails authentication. -/
def gcmTag (key iv ct : Bytes) : Bytes :=
  (List.range 16).map fun i =>
    ((key.foldl (fun a b => a * 131 + b) 3 +
      iv.foldl (fun a b => a * 137 + b) 5 +
      ct.foldl (fun a b => a * 139 + b) 13) * (i + 1) + i) % 256

/-- Modelled from the spec: `crypto.subtle.encrypt({name: AES-GCM, iv}, key, data)`.
The output buffer is the ciphertext with the 16-byte tag appended. -/
def aesGcmEncrypt (key iv data : Bytes) : Bytes :=
  ctrXor key iv data ++ gcmTag key iv (ctrXor key iv data)

/-- Modelled from the spec: `crypto.subtle.decrypt({name: AES-GCM, iv}, key, buf)`.
Splits off the final 16 bytes as the tag, recomputes the tag over the
ciphertext and rejects (returns `none`, the thrown `OperationError`) unless
it matches; never returns partial data. -/
def aesGcmDecrypt (key iv buf : Bytes) : Option Bytes :=
  if buf.length < 16 then none
  else
    let ct := buf.take (buf.length - 16)
    let tag := buf.drop (buf.length - 16)
    if tag = gcmTag key iv ct then some (ctrXor key iv ct) else none

/-- The `{iv, ciphertext, tag}` object returned by `EncryptionService.encrypt`
(base64 strings in the source, represented by the bytes they encode). -/
structure EncryptedEnvelope where
  iv : Bytes
  ciphertext : Bytes
  tag : Bytes
deriving DecidableEq, Repr

/-- Decryption failure: the `AuthenticationFailed` error of the spec
(the rejected promise from `crypto.subtle.decrypt`). -/
inductive CryptoError where
  | AuthenticationFailed
deriving DecidableEq, Repr

namespace EncryptionService

/-- `EncryptionService.encrypt(sharedSecret, payload)`.  The source draws a
random 12-byte IV from `AES.getRandomBytes(12)`; randomness is made explicit
as the `iv` argument.  The GCM output has the tag appended, and the source
splits it: `ciphertext = bytes [0, len-16)`, `tag = bytes [len-16, len)`
with `tagLength = 16`. -/
def encrypt (sharedSecret iv payload : Bytes) : EncryptedEnvelope :=
  let encrypted := aesGcmEncrypt sharedSecret iv payload
  { iv := iv
    ciphertext := encrypted.take (encrypted.length - 16)
    tag := encrypted.drop (encrypted.length - 16) }

/-- `EncryptionService.decrypt(sharedSecret, encryptedData)`.  Reassembles
`fullEncrypted = ciphertext ++ tag` and calls `crypto.subtle.decrypt`; a tag
mismatch surfaces as `AuthenticationFailed` and no plaintext. -/
def decrypt (sharedSecret : Bytes) (encryptedData : EncryptedEnvelope) :
    Except CryptoError Bytes :=
  let fullEncrypted := encryptedData.ciphertext ++ encryptedData.tag
  match aesGcmDecrypt sharedSecret encryptedData.iv fullEncrypted with
  | some plaintext => .ok plaintext
  | none => .error .AuthenticationFailed

end EncryptionService

/-! ## Key agreement (tweetnacl `nacl.box.before` / `nacl.box.keyPair`)

Modelled from the spec: X25519 is scalar multiplication on Curve25519, a
commutative Diffie-Hellman key agreement.  It is modelled as classic
Diffie-Hellman exponentiation in the multiplicative group modulo a prime:
a public key is `g ^ secret % p` and the shared secret is
`peerPublic ^ secret % p`.  The concrete group parameters are irrelevant
to the claims, which only use the group structure. -/

/-- The group modulus of the Diffie-Hellman model. -/
def dhP : Nat := 251

/-- The group generator (the Curve25519 base point of the model). -/
def dhG : Nat := 6

/-- Modelled from the spec: the public key derived from a secret scalar
(`nacl.box.keyPair.fromSecretKey` recomputes exactly this). -/
def dhPub (secretKey : Nat) : Nat := dhG ^ secretKey % dhP

/-- A `nacl.BoxKeyPair`: `{publicKey, secretKey}`. -/
structure BoxKeyPair where
  publicKey : Nat
  secretKey : Nat
deriving DecidableEq, Repr

/-- `nacl.box.keyPair.fromSecretKey(sk)`: the key pair determined by a
secret key. -/
def keyPairFromSecretKey (secretKey : Nat) : BoxKeyPair :=
  { publicKey := dhPub secretKey, secretKey := secretKey }

namespace EncryptionService

/-- `EncryptionService.deriveSharedSecret(seekerPrivateKey, recipientPublicKey)`:
delegates to `nacl.box.before(recipientPublicKey, seekerPrivateKey)`,
modelled as Diffie-Hellman exponentiation. -/
def deriveSharedSecret (seekerPrivateKey recipientPublicKey : Nat) : Nat :=
  recipientPublicKey ^ seekerPrivateKey % dhP

end EncryptionService

/-! ## KeyStore: `ConversationScreen.initializeSeekerKeyPair`

The load-or-create protocol over `expo-secure-store`, keyed by
`e2ee-keypair-<identityId>`:

* `SecureStore.getItemAsync(keyStoreId)` — if a secret key is stored, the
  key pair is rebuilt with `nacl.box.keyPair.fromSecretKey` and returned;
* otherwise `EncryptionService.generateX25519KeyPair()` generates a fresh
  pair and `SecureStore.setItemAsync` persists its secret key before the
  pair is returned.

The store slot for one identity is an `Option Nat` (the stored secret key).
Randomness of `nacl.box.keyPair()` is explicit: `fresh` is the secret key
the generator would produce for this call.  Because the source `await`s
between the read and the write, the read and the write are separate atomic
steps; a caller is a two-step protocol and concurrency is an interleaving
of two callers' steps. -/

/-- The secure-store slot for one identity. -/
abbrev KeyStoreSlot := Option Nat

/-- The sequential load-or-create operation: returns the key pair and the
resulting store slot. -/
def loadOrCreateKeyPair (store : KeyStoreSlot) (fresh : Nat) :
    BoxKeyPair × KeyStoreSlot :=
  match store with
  | some storedSecretKey => (keyPairFromSecretKey storedSecretKey, store)
  | none => (keyPairFromSecretKey fresh, some fresh)

/-- Progress of one caller through `initializeSeekerKeyPair`:
before the read, after a read that found the slot empty (generation
pending, write not yet issued), or finished with a returned secret key. -/
inductive KeyInitPhase where
  | start
  | willWrite
  | done (returnedSecretKey : Nat)
deriving DecidableEq, Repr

/-- One atomic step of one caller.  From `start`, the read: a stored key is
loaded and returned; an empty slot moves to `willWrite`.  From `willWrite`,
the unconditional `setItemAsync` persists this caller's fresh key and
returns it.  `done` is terminal. -/
def keyInitStep (fresh : Nat) : KeyInitPhase → KeyStoreSlot →
    KeyInitPhase × KeyStoreSlot
  | .start, some storedSecretKey => (.done storedSecretKey, some storedSecretKey)
  | .start, none => (.willWrite, none)
  | .willWrite, _ => (.done fresh, some fresh)
  | .done r, store => (.done r, store)

/-- Run two concurrent callers under a schedule: `true` steps caller 1
(whose generator yields `fresh1`), `false` steps caller 2. -/
def runTwoKeyInit (fresh1 fresh2 : Nat) :
    List Bool → KeyInitPhase × KeyInitPhase × KeyStoreSlot →
    KeyInitPhase × KeyInitPhase × KeyStoreSlot
  | [], s => s
  | b :: rest, (p1, p2, store) =>
      if b then
        let (p1', store') := keyInitStep fresh1 p1 store
        runTwoKeyInit fresh1 fresh2 rest (p1', p2, store')
      else
        let (p2', store') := keyInitStep fresh2 p2 store
        runTwoKeyInit fresh1 fresh2 rest (p1, p2', store')

/-! ## LocalCache: `SQLiteService`

A table is a list of rows; the `TEXT PRIMARY KEY` makes the row id the key.
`INSERT OR REPLACE` by primary key: if a row with the id exists it is
replaced in place, otherwise the row is appended.  (Rows are only ever read
back through `ORDER BY` queries, so in-place replacement is an adequate
model of the keyed table.) -/

/-- A row of the `communities` table. -/
structure Community where
  id : String
  creator_public_key : String
  name : String
  type : String
  gating_mint : Option String
  created_at : Nat
  is_member : Nat
deriving DecidableEq, Repr

/-- A row of the `community_posts` table.  `content` is the byte
representation of the stored text. -/
structure CommunityPost where
  id : String
  community_id : String
  author_public_key : String
  content : Bytes
  signature : String
  timestamp : Nat
  likes_count : Nat
  reposts_count : Nat
  is_liked_by_me : Nat
  is_reposted_by_me : Nat
  author_name : Option String
  is_moderated : Nat
deriving DecidableEq, Repr

namespace SQLiteService

/-- `SQLiteService.insertCommunity`: `INSERT OR REPLACE INTO communities`,
keyed by the `TEXT PRIMARY KEY` column `id` — the row with the same id (the
primary key admits at most one) is replaced in place, otherwise the row is
appended. -/
def insertCommunity (tbl : List Community) (community : Community) :
    List Community :=
  match tbl with
  | [] => [community]
  | row :: rest =>
      if row.id = community.id then community :: rest
      else row :: insertCommunity rest community

/-- `SQLiteService.insertCommunityPost`: `INSERT OR REPLACE INTO
community_posts`, keyed by the `TEXT PRIMARY KEY` column `id`. -/
def insertCommunityPost (tbl : List CommunityPost) (post : CommunityPost) :
    List CommunityPost :=
  match tbl with
  | [] => [post]
  | row :: rest =>
      if row.id = post.id then post :: rest
      else row :: insertCommunityPost rest post

/-- Modelled from the spec: deleting a community.  No TypeScript wrapper for
`DELETE FROM communities` exists in `SQLiteService`; the semantics are the
SQL `DELETE` under the schema's
`FOREIGN KEY (community_id) REFERENCES communities (id) ON DELETE CASCADE`
(declared both in `SQLiteService.initDb` and in
`docs/sqlite_community_schema.sql`): the community row is removed and every
post row whose `community_id` references it is removed in the same
operation. -/
def deleteCommunity (communities : List Community)
    (posts : List CommunityPost) (communityId : String) :
    List Community × List CommunityPost :=
  (communities.filter (fun c => ¬ c.id = communityId),
   posts.filter (fun p => ¬ p.community_id = communityId))

end SQLiteService

/-! ## SyncReconciler: `BackgroundSyncTask` per-item step

Inside the loop over `missedPosts`, each item is processed in its own
`try/catch`: an encrypted item is decrypted with the shared secret derived
for its sender and, on success, upserted via
`SQLiteService.insertCommunityPost`; a thrown decryption error is logged
and the item is skipped — the cache write never happens for that item. -/

/-- An item returned by the sync endpoint (`EncryptedServerMessage`). -/
structure EncryptedServerMessage where
  id : String
  sender_id : String
  created_at : Nat
  is_encrypted : Bool
  iv : Bytes
  ciphertext : Bytes
  tag : Bytes
  content : Bytes
deriving DecidableEq, Repr

/-- The `CommunityPost` row the task builds from a decrypted item. -/
def syncedPost (communityId : String) (m : EncryptedServerMessage)
    (content : Bytes) : CommunityPost :=
  { id := m.id
    community_id := communityId
    author_public_key := m.sender_id
    content := content
    signature := ""
    timestamp := m.created_at
    likes_count := 0
    reposts_count := 0
    is_liked_by_me := 0
    is_reposted_by_me := 0
    author_name := none
    is_moderated := 0 }

/-- The body of the per-item loop of the background sync task.
`senderSecret` is the shared secret the task derives for a given sender
(`deriveSharedSecret(seekerX25519SecretKey, fetchRecipientX25519PublicKey(sender))`). -/
def processMissedPost (senderSecret : String → Bytes) (communityId : String)
    (cache : List CommunityPost) (m : EncryptedServerMessage) :
    List CommunityPost :=
  if m.is_encrypted then
    match EncryptionService.decrypt (senderSecret m.sender_id)
        { iv := m.iv, ciphertext := m.ciphertext, tag := m.tag } with
    | .ok decryptedContent =>
        SQLiteService.insertCommunityPost cache
          (syncedPost communityId m decryptedContent)
    | .error _ => cache
  else
    SQLiteService.insertCommunityPost cache (syncedPost communityId m m.content)

/-! ## ConnectionManager: `SocketService`

State of the singleton service.  `socketConnected` models
`socket.connected`; `isConnectedFlag` models the `_isConnected` field;
`activeRooms` models the `Set<string>` of joined rooms as an
insertion-ordered duplicate-free list.  Outbound traffic is the list of
`socket.emit` calls an operation performs. -/

structure SocketState where
  socketInit : Bool
  socketConnected : Bool
  isConnectedFlag : Bool
  userId : Option String
  activeRooms : List String
  isPersistent : Bool
deriving DecidableEq, Repr

/-- A `socket.emit(...)` performed by the service, or the explicit
`socket.disconnect()` call. -/
inductive SocketEmit where
  | authEmit (userId : String)
  | join_chat (chatId : String)
  | leave_chat (chatId : String)
  | send_message (chatId : String) (payload : String)
  | send_community_post (roomId : String) (post : String)
  | disconnectSocket
deriving DecidableEq, Repr

/-- `NotConnected`: the early return (with a console error and no queuing)
of the send operations when the socket is absent or not connected. -/
inductive SocketError where
  | NotConnected
deriving DecidableEq, Repr

namespace SocketService

/-- `SocketService.joinChat`: no-op unless the socket is connected; no-op if
already in the room; otherwise emits `join_chat` and records membership. -/
def joinChat (s : SocketState) (chatId : String) :
    SocketState × List SocketEmit :=
  if ¬ s.socketInit ∨ ¬ s.socketConnected then (s, [])
  else if chatId ∈ s.activeRooms then (s, [])
  else ({ s with activeRooms := s.activeRooms ++ [chatId] },
        [.join_chat chatId])

/-- `SocketService.leaveChat`. -/
def leaveChat (s : SocketState) (chatId : String) :
    SocketState × List SocketEmit :=
  if ¬ s.socketInit ∨ ¬ s.socketConnected then (s, [])
  else if chatId ∈ s.activeRooms then
    ({ s with activeRooms := s.activeRooms.filter (fun r => ¬ r = chatId) },
     [.leave_chat chatId])
  else (s, [])

/-- `SocketService.pauseConnection`: when a connected socket exists, clears
`activeRooms` (source comment: "Clear active rooms before disconnecting, so
they are not rejoined automatically on reconnect"), disconnects the socket
and resets `_isConnected`. -/
def pauseConnection (s : SocketState) : SocketState × List SocketEmit :=
  if s.socketInit ∧ s.isConnectedFlag then
    ({ s with activeRooms := [], socketConnected := false,
              isConnectedFlag := false },
     [.disconnectSocket])
  else (s, [])

/-- `SocketService.sendMessage`: fails with `NotConnected` when the socket
is absent or disconnected (nothing queued); otherwise joins the room first
when not yet a member, then emits `send_message`. -/
def sendMessage (s : SocketState) (chatId payload : String) :
    SocketState × List SocketEmit × Except SocketError Unit :=
  if ¬ s.socketInit ∨ ¬ s.socketConnected then
    (s, [], .error .NotConnected)
  else
    let joined := if chatId ∈ s.activeRooms then (s, []) else joinChat s chatId
    (joined.1, joined.2 ++ [.send_message chatId payload], .ok ())

/-- `SocketService.sendCommunityPost`: fails with `NotConnected` when the
socket is absent or disconnected; otherwise emits `send_community_post` to
`community_<communityId>` — when not a member of that room it only logs a
warning ("attempting to send anyway") and does *not* join. -/
def sendCommunityPost (s : SocketState) (communityId post : String) :
    SocketState × List SocketEmit × Except SocketError Unit :=
  if ¬ s.socketInit ∨ ¬ s.socketConnected then
    (s, [], .error .NotConnected)
  else
    (s, [.send_community_post ("community_" ++ communityId) post], .ok ())

/-- The body of the rejoin loop `activeRooms.forEach(roomId =>
this.joinChat(roomId))`: one `joinChat` call, with its emissions appended
to the accumulated outbound traffic. -/
def rejoinStep (acc : SocketState × List SocketEmit) (roomId : String) :
    SocketState × List SocketEmit :=
  let step := joinChat acc.1 roomId
  (step.1, acc.2 ++ step.2)

/-- The `connect` handler installed by `initSocket`: authenticates, marks
the connection live, and — when `activeRooms` is non-empty — iterates
`activeRooms.forEach(roomId => this.joinChat(roomId))` intending to rejoin
them. -/
def onConnect (s : SocketState) (userId : String) :
    SocketState × List SocketEmit :=
  let s1 : SocketState :=
    { s with socketConnected := true, isConnectedFlag := true,
             userId := some userId }
  s.activeRooms.foldl rejoinStep (s1, [.authEmit userId])

/-- The `disconnect` handler: clears `_isConnected`, keeps `activeRooms`,
and schedules an automatic `initSocket` reconnection exactly when the
reason is not the manual `io client disconnect`, the service is persistent
and a user id is known.  Returns the new state and whether reconnection is
scheduled. -/
def onDisconnect (s : SocketState) (reason : String) : SocketState × Bool :=
  ({ s with isConnectedFlag := false },
   decide (¬ reason = "io client disconnect") && s.isPersistent &&
     s.userId.isSome)

end SocketService

/-- The `join_chat` requests within a list of emitted events. -/
def joinEmits (es : List SocketEmit) : List SocketEmit :=
  es.filter fun e =>
    match e with
    | .join_chat _ => true
    | _ => false

/-! ## Inbound event dispatch: the `new_message` and
`community_post_received` handlers

Inbound payloads are untyped JS objects; each field that the handler
truth-tests is an `Option` (absent or falsy ⇒ `none`).  The handler's
decision is which dispatch it performs. -/

/-- An inbound `new_message` payload. -/
structure InboundMessage where
  id : Option String
  chat_room_id : Option String
  iv : Option Bytes
  ciphertext : Option Bytes
  tag : Option Bytes
  senderPublicKey : Option String
  sender_id : Option String
deriving DecidableEq, Repr

/-- What the `new_message` handler does with a payload. -/
inductive NewMessageAction where
  | processEncrypted
  | receiveMessage
  | dropOwn
  | malformed
deriving DecidableEq, Repr

/-- An inbound `community_post_received` payload. -/
structure InboundPost where
  id : Option String
  community_id : Option String
  author_public_key : Option String
deriving DecidableEq, Repr

/-- What the `community_post_received` handler does with a payload. -/
inductive PostAction where
  | insertPost
  | dropOwn
  | malformed
deriving DecidableEq, Repr

namespace SocketService

/-- The `new_message` handler: requires `id` and `chat_room_id`; when the
payload carries `iv`, `ciphertext`, `tag` and `senderPublicKey` it
dispatches `processEncryptedMessage` (no sender check on this branch);
otherwise it drops the event when `sender_id` equals the local `userId`
and dispatches `receiveMessage` otherwise. -/
def onNewMessage (localUserId : Option String) (m : InboundMessage) :
    NewMessageAction :=
  if m.id.isSome ∧ m.chat_room_id.isSome then
    if m.iv.isSome ∧ m.ciphertext.isSome ∧ m.tag.isSome ∧
        m.senderPublicKey.isSome then
      .processEncrypted
    else if m.sender_id = localUserId then .dropOwn
    else .receiveMessage
  else .malformed

/-- The `community_post_received` handler: requires `id` and
`community_id`; drops the event when `author_public_key` equals the local
identity (`state.auth.address`), otherwise inserts the post into SQLite. -/
def onCommunityPostReceived (currentUserId : Option String)
    (p : InboundPost) : PostAction :=
  if p.id.isSome ∧ p.community_id.isSome then
    if p.author_public_key = currentUserId then .dropOwn
    else .insertPost
  else .malformed

end SocketService

/-- The invariant tying the two-caller key-initialization execution to its
generated keys: the store slot holds nothing or one of the two fresh
secrets, and a completed caller returned one of the two fresh secrets. -/
def KeyInitInv (fresh1 fresh2 : Nat)
    (s : KeyInitPhase × KeyInitPhase × KeyStoreSlot) : Prop :=
  (s.2.2 = none ∨ s.2.2 = some fresh1 ∨ s.2.2 = some fresh2) ∧
  (∀ r, s.1 = .done r → r = fresh1 ∨ r = fresh2) ∧
  (∀ r, s.2.1 = .done r → r = fresh1 ∨ r = fresh2)

/-! ## Helper lemmas: the CTR layer and the tag -/

theorem ctrXorFrom_ctrXorFrom (key iv : Bytes) (i : Nat) (data : Bytes) :
    ctrXorFrom key iv i (ctrXorFrom key iv i data) = data := by
  induction data generalizing i with
  | nil => simp [ctrXorFrom]
  | cons b bs ih =>
      simp [ctrXorFrom, ih, Nat.xor_assoc, Nat.xor_self, Nat.xor_zero]

theorem ctrXor_ctrXor (key iv data : Bytes) :
    ctrXor key iv (ctrXor key iv data) = data :=
  ctrXorFrom_ctrXorFrom key iv 0 data

theorem gcmTag_length (key iv ct : Bytes) : (gcmTag key iv ct).length = 16 := by
  simp [gcmTag]

/-- `encrypt` splits the GCM output exactly at the ciphertext/tag boundary:
the envelope's ciphertext is the CTR encryption of the payload and its tag
is the GCM tag over that ciphertext. -/
theorem EncryptionService.encrypt_eq (sharedSecret iv payload : Bytes) :
    EncryptionService.encrypt sharedSecret iv payload =
      { iv := iv
        ciphertext := ctrXor sharedSecret iv payload
        tag := gcmTag sharedSecret iv (ctrXor sharedSecret iv payload) } := by
  have hlen : (ctrXor sharedSecret iv payload ++
      gcmTag sharedSecret iv (ctrXor sharedSecret iv payload)).length - 16 =
      (ctrXor sharedSecret iv payload).length := by
    simp [gcmTag_length]
  simp only [EncryptionService.encrypt, aesGcmEncrypt, hlen, List.take_left,
    List.drop_left]

/-- Decryption of any envelope whose tag is exactly the 16-byte GCM tag of
its ciphertext succeeds with the CTR decryption of that ciphertext. -/
theorem EncryptionService.decrypt_good_tag (sharedSecret : Bytes)
    (e : EncryptedEnvelope) (htag : e.tag = gcmTag sharedSecret e.iv e.ciphertext) :
    EncryptionService.decrypt sharedSecret e =
      .ok (ctrXor sharedSecret e.iv e.ciphertext) := by
  have hlen : (e.ciphertext ++ e.tag).length = e.ciphertext.length + 16 := by
    simp [htag, gcmTag_length]
  simp only [EncryptionService.decrypt, aesGcmDecrypt, hlen, Nat.add_sub_cancel,
    List.take_left, List.drop_left]
  have h16 : ¬ e.ciphertext.length + 16 < 16 := by omega
  simp [h16, htag]

/-- Decryption of any envelope with a 16-byte tag that is *not* the GCM tag
of its ciphertext fails with `AuthenticationFailed`. -/
theorem EncryptionService.decrypt_bad_tag (sharedSecret : Bytes)
    (e : EncryptedEnvelope) (hlen16 : e.tag.length = 16)
    (htag : e.tag ≠ gcmTag sharedSecret e.iv e.ciphertext) :
    EncryptionService.decrypt sharedSecret e = .error .AuthenticationFailed := by
  have hlen : (e.ciphertext ++ e.tag).length = e.ciphertext.length + 16 := by
    simp [hlen16]
  simp only [EncryptionService.decrypt, aesGcmDecrypt, hlen, Nat.add_sub_cancel,
    List.take_left, List.drop_left]
  have h16 : ¬ e.ciphertext.length + 16 < 16 := by omega
  simp [h16, htag]

/-! ## Claim C2 -/

/-- C2: for every plaintext `payload`, shared secret and IV, decrypting the
envelope produced by `EncryptionService.encrypt` with the same secret
returns exactly the plaintext — `decrypt(S, encrypt(S, P)) == P` — where
`encrypt` splits the AES-GCM output into the ciphertext and the 16-byte
tag and `decrypt` reassembles them. -/
theorem c2_decrypt_encrypt_roundtrip (sharedSecret iv payload : Bytes) :
    EncryptionService.decrypt sharedSecret
      (EncryptionService.encrypt sharedSecret iv payload) = .ok payload := by
  rw [EncryptionService.encrypt_eq,
    EncryptionService.decrypt_good_tag sharedSecret _ rfl]
  simp [ctrXor_ctrXor]

/-! ## Claim C1 -/

/-- C1: for every shared secret and every envelope whose 16-byte
authentication tag does not verify (is not the GCM tag of the envelope's
IV and ciphertext under that secret — in particular any tampered authTag
of a validly produced encryption, whose tag would be exactly that GCM
tag by `EncryptionService.encrypt_eq`), `decrypt` fails with
`AuthenticationFailed` and returns no plaintext; and the catch-up step of
`BackgroundSyncTask` leaves the local cache unchanged by such an item. -/
theorem c1_auth_failure_is_hard_and_cache_untouched
    (senderSecret : String → Bytes) (communityId : String)
    (cache : List CommunityPost) (m : EncryptedServerMessage)
    (henc : m.is_encrypted = true) (hlen : m.tag.length = 16)
    (hbad : m.tag ≠ gcmTag (senderSecret m.sender_id) m.iv m.ciphertext) :
    EncryptionService.decrypt (senderSecret m.sender_id)
        { iv := m.iv, ciphertext := m.ciphertext, tag := m.tag } =
      .error .AuthenticationFailed ∧
    processMissedPost senderSecret communityId cache m = cache := by
  have hdec := EncryptionService.decrypt_bad_tag (senderSecret m.sender_id)
    { iv := m.iv, ciphertext := m.ciphertext, tag := m.tag } hlen hbad
  refine ⟨hdec, ?_⟩
  simp [processMissedPost, henc, hdec]

/-- Witness for C1 at a concrete tampered envelope: the all-zero 16-byte
tag does not verify, decryption fails with `AuthenticationFailed`, and the
catch-up step leaves an empty cache empty. -/
theorem c1_witness :
    ((List.replicate 16 0 : Bytes).length = 16 ∧
      (List.replicate 16 0 : Bytes) ≠ gcmTag [9] [0, 1] [7]) ∧
    (EncryptionService.decrypt [9]
        { iv := [0, 1], ciphertext := [7], tag := List.replicate 16 0 } =
      .error .AuthenticationFailed ∧
     processMissedPost (fun _ => [9]) "c1" []
        { id := "p1", sender_id := "alice", created_at := 5,
          is_encrypted := true, iv := [0, 1], ciphertext := [7],
          tag := List.replicate 16 0, content := [] } = []) :=
  ⟨⟨by decide, by decide⟩,
    c1_auth_failure_is_hard_and_cache_untouched (fun _ => [9]) "c1" []
      { id := "p1", sender_id := "alice", created_at := 5,
        is_encrypted := true, iv := [0, 1], ciphertext := [7],
        tag := List.replicate 16 0, content := [] }
      rfl (by decide) (by decide)⟩

/-! ## Claim C8 -/

/-- C8: for all valid key pairs `A` and `B` (public key derived from the
secret key), key agreement is commutative:
`deriveSharedSecret(A.private, B.public) = deriveSharedSecret(B.private, A.public)`. -/
theorem c8_derive_shared_secret_commutative (A B : BoxKeyPair)
    (hA : A.publicKey = dhPub A.secretKey)
    (hB : B.publicKey = dhPub B.secretKey) :
    EncryptionService.deriveSharedSecret A.secretKey B.publicKey =
      EncryptionService.deriveSharedSecret B.secretKey A.publicKey := by
  rw [hA, hB]
  unfold EncryptionService.deriveSharedSecret dhPub
  rw [← Nat.pow_mod, ← Nat.pow_mod, ← pow_mul, ← pow_mul, Nat.mul_comm]

/-- Witness for C8 at the concrete key pairs with secrets 3 and 5. -/
theorem c8_witness :
    ((keyPairFromSecretKey 3).publicKey = dhPub (keyPairFromSecretKey 3).secretKey ∧
     (keyPairFromSecretKey 5).publicKey = dhPub (keyPairFromSecretKey 5).secretKey) ∧
    EncryptionService.deriveSharedSecret (keyPairFromSecretKey 3).secretKey
        (keyPairFromSecretKey 5).publicKey =
      EncryptionService.deriveSharedSecret (keyPairFromSecretKey 5).secretKey
        (keyPairFromSecretKey 3).publicKey :=
  ⟨⟨rfl, rfl⟩,
    c8_derive_shared_secret_commutative
      (keyPairFromSecretKey 3) (keyPairFromSecretKey 5) rfl rfl⟩

/-! ## Claim C3 -/

/-- One step of a caller preserves `KeyInitInv` when the caller's fresh key
is one of the two tracked keys. -/
theorem keyInitStep_preserves (fresh1 fresh2 fresh : Nat)
    (hf : fresh = fresh1 ∨ fresh = fresh2) (p : KeyInitPhase)
    (st : KeyStoreSlot)
    (hst : st = none ∨ st = some fresh1 ∨ st = some fresh2)
    (hp : ∀ r, p = .done r → r = fresh1 ∨ r = fresh2) :
    ((keyInitStep fresh p st).2 = none ∨
     (keyInitStep fresh p st).2 = some fresh1 ∨
     (keyInitStep fresh p st).2 = some fresh2) ∧
    (∀ r, (keyInitStep fresh p st).1 = .done r → r = fresh1 ∨ r = fresh2) := by
  cases p with
  | start =>
      cases st with
      | none => simp [keyInitStep]
      | some sk =>
          rcases hst with h | h | h
          · exact absurd h (by simp)
          · simp_all [keyInitStep]
          · simp_all [keyInitStep]
  | willWrite =>
      cases st <;> simp_all [keyInitStep]
  | done r =>
      cases st with
      | none =>
          refine ⟨by simp [keyInitStep], ?_⟩
          intro r' h
          simp only [keyInitStep] at h
          exact hp r' h
      | some sk =>
          refine ⟨by simpa [keyInitStep] using hst, ?_⟩
          intro r' h
          simp only [keyInitStep] at h
          exact hp r' h

/-- Running the two-caller interleaving preserves `KeyInitInv`. -/
theorem runTwoKeyInit_preserves (fresh1 fresh2 : Nat) :
    ∀ (sched : List Bool) (s : KeyInitPhase × KeyInitPhase × KeyStoreSlot),
      KeyInitInv fresh1 fresh2 s →
      KeyInitInv fresh1 fresh2 (runTwoKeyInit fresh1 fresh2 sched s) := by
  intro sched
  induction sched with
  | nil => intro s h; exact h
  | cons b rest ih =>
      intro s h
      obtain ⟨p1, p2, st⟩ := s
      obtain ⟨hst, hp1, hp2⟩ := h
      cases b with
      | true =>
          have hstep := keyInitStep_preserves fresh1 fresh2 fresh1
            (Or.inl rfl) p1 st hst hp1
          exact ih ((keyInitStep fresh1 p1 st).1, p2, (keyInitStep fresh1 p1 st).2)
            ⟨hstep.1, hstep.2, hp2⟩
      | false =>
          have hstep := keyInitStep_preserves fresh1 fresh2 fresh2
            (Or.inr rfl) p2 st hst hp2
          exact ih (p1, (keyInitStep fresh2 p2 st).1, (keyInitStep fresh2 p2 st).2)
            ⟨hstep.1, hp1, hstep.2⟩

/-- C3 counterexample: the claim asserts that two concurrent calls for a
fresh identity both return identical key material.  Under the interleaving
read₁, read₂, write₁, write₂ (possible because `initializeSeekerKeyPair`
awaits between `getItemAsync` and `setItemAsync` and holds no lock), caller
1 returns the key pair with secret 1, caller 2 returns the key pair with
secret 2, and the store ends with caller 2's key, silently replacing the
key caller 1 returned. -/
theorem c3_counterexample :
    runTwoKeyInit 1 2 [true, false, true, false]
        (.start, .start, none) =
      (.done 1, .done 2, some 2) ∧ (1 : Nat) ≠ 2 := by
  constructor
  · rfl
  · decide

/-- C3 amended: when a key pair is already persisted under the identity,
`initializeSeekerKeyPair` loads and returns it unchanged without
regenerating or rewriting it; for a fresh identity it persists the freshly
generated secret before returning the pair built from it; and under any
interleaving of two concurrent calls on a fresh identity the store ends
with at most one persisted key pair, which is one of the two freshly
generated ones, and every completed call returns one of the two freshly
generated secrets — but the two calls need not return identical key
material (the last writer overwrites the first writer's persisted key). -/
theorem c3_load_or_create_amended :
    (∀ sk fresh, loadOrCreateKeyPair (some sk) fresh =
      (keyPairFromSecretKey sk, some sk)) ∧
    (∀ fresh, loadOrCreateKeyPair none fresh =
      (keyPairFromSecretKey fresh, some fresh)) ∧
    (∀ fresh1 fresh2 sched,
      KeyInitInv fresh1 fresh2
        (runTwoKeyInit fresh1 fresh2 sched (.start, .start, none))) := by
  refine ⟨fun sk fresh => rfl, fun fresh => rfl, fun fresh1 fresh2 sched => ?_⟩
  refine runTwoKeyInit_preserves fresh1 fresh2 sched _ ?_
  refine ⟨Or.inl rfl, ?_, ?_⟩ <;> intro r h <;> simp at h

/-- Witness for C3's amended statement: the sequential load path at secret
7, and the invariant conclusion instantiated at the schedule where caller 1
runs to completion first. -/
theorem c3_witness :
    loadOrCreateKeyPair (some 7) 9 = (keyPairFromSecretKey 7, some 7) ∧
    ((5 : Nat) = 5 ∨ (5 : Nat) = 6) :=
  ⟨c3_load_or_create_amended.1 7 9,
   (c3_load_or_create_amended.2.2 5 6 [true, true]).2.1 5 (by decide)⟩

/-! ## Claim C4 -/

theorem insertCommunityPost_last_wins (tbl : List CommunityPost)
    (p p' : CommunityPost) (h : p'.id = p.id) :
    SQLiteService.insertCommunityPost (SQLiteService.insertCommunityPost tbl p) p' =
      SQLiteService.insertCommunityPost tbl p' := by
  induction tbl with
  | nil => simp [SQLiteService.insertCommunityPost, h]
  | cons a as ih =>
      by_cases ha : a.id = p.id
      · simp [SQLiteService.insertCommunityPost, ha, h]
      · simp [SQLiteService.insertCommunityPost, ha, h, ih]

theorem insertCommunityPost_length_key (tbl : List CommunityPost)
    (p p' : CommunityPost) (h : p'.id = p.id) :
    (SQLiteService.insertCommunityPost tbl p').length =
      (SQLiteService.insertCommunityPost tbl p).length := by
  induction tbl with
  | nil => simp [SQLiteService.insertCommunityPost]
  | cons a as ih =>
      by_cases ha : a.id = p.id
      · simp [SQLiteService.insertCommunityPost, ha, h]
      · simp [SQLiteService.insertCommunityPost, ha, h, ih]

theorem insertCommunityPost_countP_one (tbl : List CommunityPost)
    (p : CommunityPost) (h : tbl.countP (fun x => x.id = p.id) ≤ 1) :
    (SQLiteService.insertCommunityPost tbl p).countP
      (fun x => x.id = p.id) = 1 := by
  induction tbl with
  | nil => simp [SQLiteService.insertCommunityPost]
  | cons a as ih =>
      by_cases ha : a.id = p.id
      · have h2 := h
        rw [List.countP_cons] at h2
        have h3 : (if (fun x => decide (x.id = p.id)) a then 1 else 0) = 1 := by
          simp [ha]
        rw [h3] at h2
        have hz : as.countP (fun x => x.id = p.id) = 0 := by omega
        simp [SQLiteService.insertCommunityPost, ha, List.countP_cons, hz]
      · have h2 := h
        rw [List.countP_cons] at h2
        have h3 : (if (fun x => decide (x.id = p.id)) a then 1 else 0) = 0 := by
          simp [ha]
        rw [h3] at h2
        have h' : as.countP (fun x => x.id = p.id) ≤ 1 := by omega
        simp [SQLiteService.insertCommunityPost, ha, List.countP_cons, ih h']

theorem insertCommunity_last_wins (tbl : List Community)
    (c c' : Community) (h : c'.id = c.id) :
    SQLiteService.insertCommunity (SQLiteService.insertCommunity tbl c) c' =
      SQLiteService.insertCommunity tbl c' := by
  induction tbl with
  | nil => simp [SQLiteService.insertCommunity, h]
  | cons a as ih =>
      by_cases ha : a.id = c.id
      · simp [SQLiteService.insertCommunity, ha, h]
      · simp [SQLiteService.insertCommunity, ha, h, ih]

theorem insertCommunity_length_key (tbl : List Community)
    (c c' : Community) (h : c'.id = c.id) :
    (SQLiteService.insertCommunity tbl c').length =
      (SQLiteService.insertCommunity tbl c).length := by
  induction tbl with
  | nil => simp [SQLiteService.insertCommunity]
  | cons a as ih =>
      by_cases ha : a.id = c.id
      · simp [SQLiteService.insertCommunity, ha, h]
      · simp [SQLiteService.insertCommunity, ha, h, ih]

theorem insertCommunity_countP_one (tbl : List Community)
    (c : Community) (h : tbl.countP (fun x => x.id = c.id) ≤ 1) :
    (SQLiteService.insertCommunity tbl c).countP
      (fun x => x.id = c.id) = 1 := by
  induction tbl with
  | nil => simp [SQLiteService.insertCommunity]
  | cons a as ih =>
      by_cases ha : a.id = c.id
      · have h2 := h
        rw [List.countP_cons] at h2
        have h3 : (if (fun x => decide (x.id = c.id)) a then 1 else 0) = 1 := by
          simp [ha]
        rw [h3] at h2
        have hz : as.countP (fun x => x.id = c.id) = 0 := by omega
        simp [SQLiteService.insertCommunity, ha, List.countP_cons, hz]
      · have h2 := h
        rw [List.countP_cons] at h2
        have h3 : (if (fun x => decide (x.id = c.id)) a then 1 else 0) = 0 := by
          simp [ha]
        rw [h3] at h2
        have h' : as.countP (fun x => x.id = c.id) ≤ 1 := by omega
        simp [SQLiteService.insertCommunity, ha, List.countP_cons, ih h']

/-- C4: upserting twice with the same record id (identical or updated
fields) leaves the cache in the state of the last upsert alone; the cache
size is invariant under the repeated upsert; and on a cache holding at most
one row per id (the `TEXT PRIMARY KEY` invariant) the upserted id holds
exactly one row afterwards — for `insertCommunityPost` and
`insertCommunity` alike. -/
theorem c4_upsert_idempotent_by_id
    (tblP : List CommunityPost) (p p' : CommunityPost) (hp : p'.id = p.id)
    (hcp : tblP.countP (fun x => x.id = p.id) ≤ 1)
    (tblC : List Community) (c c' : Community) (hc : c'.id = c.id)
    (hcc : tblC.countP (fun x => x.id = c.id) ≤ 1) :
    (SQLiteService.insertCommunityPost
        (SQLiteService.insertCommunityPost tblP p) p' =
      SQLiteService.insertCommunityPost tblP p' ∧
     (SQLiteService.insertCommunityPost
        (SQLiteService.insertCommunityPost tblP p) p').length =
      (SQLiteService.insertCommunityPost tblP p).length ∧
     (SQLiteService.insertCommunityPost tblP p).countP
        (fun x => x.id = p.id) = 1) ∧
    (SQLiteService.insertCommunity
        (SQLiteService.insertCommunity tblC c) c' =
      SQLiteService.insertCommunity tblC c' ∧
     (SQLiteService.insertCommunity
        (SQLiteService.insertCommunity tblC c) c').length =
      (SQLiteService.insertCommunity tblC c).length ∧
     (SQLiteService.insertCommunity tblC c).countP
        (fun x => x.id = c.id) = 1) := by
  refine ⟨⟨insertCommunityPost_last_wins tblP p p' hp, ?_,
      insertCommunityPost_countP_one tblP p hcp⟩,
    ⟨insertCommunity_last_wins tblC c c' hc, ?_,
      insertCommunity_countP_one tblC c hcc⟩⟩
  · rw [insertCommunityPost_last_wins tblP p p' hp]
    exact insertCommunityPost_length_key tblP p p' hp
  · rw [insertCommunity_last_wins tblC c c' hc]
    exact insertCommunity_length_key tblC c c' hc

/-- Witness for C4: re-upserting the post `p1` (with updated fields) and
the community `c1` over a one-row cache. -/
theorem c4_witness :
    (({ id := "p1", community_id := "c1", author_public_key := "a",
        content := [1], signature := "s", timestamp := 1, likes_count := 0,
        reposts_count := 0, is_liked_by_me := 0, is_reposted_by_me := 0,
        author_name := none, is_moderated := 0 } : CommunityPost).id = "p1" ∧
     SQLiteService.insertCommunityPost
        (SQLiteService.insertCommunityPost []
          { id := "p1", community_id := "c1", author_public_key := "a",
            content := [1], signature := "s", timestamp := 1,
            likes_count := 0, reposts_count := 0, is_liked_by_me := 0,
            is_reposted_by_me := 0, author_name := none, is_moderated := 0 })
        { id := "p1", community_id := "c1", author_public_key := "a",
          content := [2], signature := "s", timestamp := 2, likes_count := 3,
          reposts_count := 0, is_liked_by_me := 1, is_reposted_by_me := 0,
          author_name := none, is_moderated := 0 } =
      [{ id := "p1", community_id := "c1", author_public_key := "a",
         content := [2], signature := "s", timestamp := 2, likes_count := 3,
         reposts_count := 0, is_liked_by_me := 1, is_reposted_by_me := 0,
         author_name := none, is_moderated := 0 }]) ∧
    SQLiteService.insertCommunity
        (SQLiteService.insertCommunity []
          { id := "c1", creator_public_key := "k", name := "n",
            type := "public", gating_mint := none, created_at := 0,
            is_member := 0 })
        { id := "c1", creator_public_key := "k", name := "n2",
          type := "public", gating_mint := none, created_at := 0,
          is_member := 1 } =
      [{ id := "c1", creator_public_key := "k", name := "n2",
         type := "public", gating_mint := none, created_at := 0,
         is_member := 1 }] := by
  have h := c4_upsert_idempotent_by_id []
    { id := "p1", community_id := "c1", author_public_key := "a",
      content := [1], signature := "s", timestamp := 1, likes_count := 0,
      reposts_count := 0, is_liked_by_me := 0, is_reposted_by_me := 0,
      author_name := none, is_moderated := 0 }
    { id := "p1", community_id := "c1", author_public_key := "a",
      content := [2], signature := "s", timestamp := 2, likes_count := 3,
      reposts_count := 0, is_liked_by_me := 1, is_reposted_by_me := 0,
      author_name := none, is_moderated := 0 } rfl (by decide) []
    { id := "c1", creator_public_key := "k", name := "n",
      type := "public", gating_mint := none, created_at := 0,
      is_member := 0 }
    { id := "c1", creator_public_key := "k", name := "n2",
      type := "public", gating_mint := none, created_at := 0,
      is_member := 1 } rfl (by decide)
  exact ⟨⟨rfl, h.1.1.trans rfl⟩, h.2.1.trans rfl⟩

/-! ## Claim C10 -/

theorem filter_not_community_length (posts : List CommunityPost) (cid : String) :
    (posts.filter (fun p => ¬ p.community_id = cid)).length +
      posts.countP (fun p => p.community_id = cid) = posts.length := by
  induction posts with
  | nil => rfl
  | cons a as ih =>
      by_cases hca : a.community_id = cid <;>
        simp [List.filter_cons, List.countP_cons, hca] at ih ⊢ <;> omega

/-- C10: deleting a community removes the community row and, by the
schema's `ON DELETE CASCADE` on `community_posts.community_id`, every post
row of that community in the same operation — afterwards no orphaned post
of that community remains, and exactly the cascade-deleted rows are gone. -/
theorem c10_delete_community_cascades (communities : List Community)
    (posts : List CommunityPost) (cid : String) :
    (SQLiteService.deleteCommunity communities posts cid).2.countP
        (fun p => p.community_id = cid) = 0 ∧
    (SQLiteService.deleteCommunity communities posts cid).1.countP
        (fun c => c.id = cid) = 0 ∧
    (SQLiteService.deleteCommunity communities posts cid).2.length +
        posts.countP (fun p => p.community_id = cid) = posts.length := by
  refine ⟨?_, ?_, ?_⟩
  · simp [SQLiteService.deleteCommunity, List.countP_eq_zero]
  · simp [SQLiteService.deleteCommunity, List.countP_eq_zero]
  · exact filter_not_community_length posts cid

/-! ## Claim C5 -/

/-- C5 counterexample: the claim states that `pause()` leaves RoomMembership
unchanged, but `pauseConnection` on a connected service subscribed to
`community_abc` empties `activeRooms` (the source clears them on purpose so
they are not rejoined on reconnect). -/
theorem c5_counterexample :
    (SocketService.pauseConnection
      { socketInit := true, socketConnected := true, isConnectedFlag := true,
        userId := some "u", activeRooms := ["community_abc"],
        isPersistent := true }).1.activeRooms ≠ ["community_abc"] := by
  decide

/-- C5 amended: on a connected service, `pauseConnection` clears in-flight
transport state (disconnects the socket, resets the connected flags) and
also clears RoomMembership — subscriptions are forgotten across a
pause/resume cycle rather than preserved. -/
theorem c5_pause_clears_rooms (s : SocketState)
    (hinit : s.socketInit = true) (hconn : s.isConnectedFlag = true) :
    (SocketService.pauseConnection s).1.activeRooms = [] ∧
    (SocketService.pauseConnection s).1.isConnectedFlag = false ∧
    (SocketService.pauseConnection s).1.socketConnected = false ∧
    (SocketService.pauseConnection s).2 = [.disconnectSocket] := by
  simp [SocketService.pauseConnection, hinit, hconn]

/-- Witness for C5's amended statement at a concrete connected state. -/
theorem c5_witness :
    (({ socketInit := true, socketConnected := true, isConnectedFlag := true,
        userId := some "u", activeRooms := ["r1", "r2"],
        isPersistent := true } : SocketState).socketInit = true ∧
     ({ socketInit := true, socketConnected := true, isConnectedFlag := true,
        userId := some "u", activeRooms := ["r1", "r2"],
        isPersistent := true } : SocketState).isConnectedFlag = true) ∧
    (SocketService.pauseConnection
      { socketInit := true, socketConnected := true, isConnectedFlag := true,
        userId := some "u", activeRooms := ["r1", "r2"],
        isPersistent := true }).1.activeRooms = [] :=
  ⟨⟨rfl, rfl⟩,
    (c5_pause_clears_rooms
      { socketInit := true, socketConnected := true, isConnectedFlag := true,
        userId := some "u", activeRooms := ["r1", "r2"],
        isPersistent := true } rfl rfl).1⟩

/-! ## Claim C6 -/

/-- C6 counterexample: the claim states that both send operations
implicitly join a room they are not a member of before transmitting.  On a
connected service with empty RoomMembership, `sendCommunityPost` transmits
to `community_abc` without joining: membership stays empty and no
`join_chat` request is emitted. -/
theorem c6_counterexample :
    (SocketService.sendCommunityPost
      { socketInit := true, socketConnected := true, isConnectedFlag := true,
        userId := some "u", activeRooms := [], isPersistent := true }
      "abc" "post1").1.activeRooms = [] ∧
    joinEmits (SocketService.sendCommunityPost
      { socketInit := true, socketConnected := true, isConnectedFlag := true,
        userId := some "u", activeRooms := [], isPersistent := true }
      "abc" "post1").2.1 = [] ∧
    (SocketService.sendCommunityPost
      { socketInit := true, socketConnected := true, isConnectedFlag := true,
        userId := some "u", activeRooms := [], isPersistent := true }
      "abc" "post1").2.2 = .ok () :=
  ⟨rfl, rfl, rfl⟩

/-- C6 amended: when the transport is not connected both send operations
fail with `NotConnected`, leave the state unchanged and queue nothing.
When connected, `sendMessage` implicitly joins the room first when not a
member and then transmits; `sendCommunityPost` transmits to
`community_<id>` without joining (it only warns when not a member). -/
theorem c6_send_amended (s : SocketState)
    (chatId payload communityId post : String) :
    ((s.socketInit = false ∨ s.socketConnected = false) →
      SocketService.sendMessage s chatId payload =
        (s, [], .error .NotConnected) ∧
      SocketService.sendCommunityPost s communityId post =
        (s, [], .error .NotConnected)) ∧
    (s.socketInit = true → s.socketConnected = true →
      chatId ∉ s.activeRooms →
      SocketService.sendMessage s chatId payload =
        ({ s with activeRooms := s.activeRooms ++ [chatId] },
         [.join_chat chatId, .send_message chatId payload], .ok ())) ∧
    (s.socketInit = true → s.socketConnected = true →
      chatId ∈ s.activeRooms →
      SocketService.sendMessage s chatId payload =
        (s, [.send_message chatId payload], .ok ())) ∧
    (s.socketInit = true → s.socketConnected = true →
      SocketService.sendCommunityPost s communityId post =
        (s, [.send_community_post ("community_" ++ communityId) post],
         .ok ())) := by
  refine ⟨?_, ?_, ?_, ?_⟩
  · rintro (h | h) <;>
      simp [SocketService.sendMessage, SocketService.sendCommunityPost, h]
  · intro h1 h2 h3
    simp [SocketService.sendMessage, SocketService.joinChat, h1, h2, h3]
  · intro h1 h2 h3
    simp [SocketService.sendMessage, h1, h2, h3]
  · intro h1 h2
    simp [SocketService.sendCommunityPost, h1, h2]

/-- Witness for C6's amended statement: a chat send on a connected service
not yet a member of room `c9` joins then transmits. -/
theorem c6_witness :
    ("c9" ∉ (["other"] : List String)) ∧
    SocketService.sendMessage
      { socketInit := true, socketConnected := true, isConnectedFlag := true,
        userId := some "u", activeRooms := ["other"], isPersistent := true }
      "c9" "hello" =
      ({ socketInit := true, socketConnected := true, isConnectedFlag := true,
         userId := some "u", activeRooms := ["other", "c9"],
         isPersistent := true },
       [.join_chat "c9", .send_message "c9" "hello"], .ok ()) :=
  ⟨by decide,
    (c6_send_amended
      { socketInit := true, socketConnected := true, isConnectedFlag := true,
        userId := some "u", activeRooms := ["other"], isPersistent := true }
      "c9" "hello" "x" "y").2.1 rfl rfl (by decide)⟩

/-! ## Claim C7 -/

/-- The rejoin loop of the `connect` handler is a no-op whenever every room
it iterates over is already in `activeRooms` — which is always the case,
because it iterates over `activeRooms` itself and `joinChat` early-returns
on current members without emitting `join_chat`. -/
theorem rejoin_fold_fixed (rooms : List String) (st : SocketState)
    (es : List SocketEmit) (hsub : ∀ r ∈ rooms, r ∈ st.activeRooms) :
    rooms.foldl SocketService.rejoinStep (st, es) = (st, es) := by
  induction rooms with
  | nil => rfl
  | cons r rs ih =>
      have hr : r ∈ st.activeRooms := hsub r (by simp)
      have hj : SocketService.joinChat st r = (st, []) := by
        unfold SocketService.joinChat
        by_cases hc : ¬ st.socketInit ∨ ¬ st.socketConnected
        · rw [if_pos hc]
        · rw [if_neg hc, if_pos hr]
      have hstep : SocketService.rejoinStep (st, es) r = (st, es) := by
        simp [SocketService.rejoinStep, hj]
      rw [List.foldl_cons, hstep]
      exact ih (fun x hx => hsub x (List.mem_cons_of_mem r hx))

/-- C7: the source intends the `connect` handler to replay every entry of
the pre-disconnect RoomMembership as a join request ("Rejoining active
rooms after reconnection"), but for every state and user the handler emits
only the authentication message and no `join_chat` at all, because
`joinChat` early-returns on rooms already in `activeRooms` — exactly the
rooms being replayed.  A manual disconnect (`io client disconnect`) indeed
schedules no automatic reconnection. -/
theorem c7_reconnect_replays_no_joins (s : SocketState) (userId : String) :
    (SocketService.onConnect s userId).2 = [SocketEmit.authEmit userId] ∧
    (SocketService.onDisconnect s "io client disconnect").2 = false := by
  constructor
  · have h := rejoin_fold_fixed s.activeRooms
      { s with socketConnected := true, isConnectedFlag := true,
               userId := some userId }
      [SocketEmit.authEmit userId] (fun r hr => hr)
    unfold SocketService.onConnect
    rw [h]
  · simp [SocketService.onDisconnect]

/-! ## Claim C9 -/

/-- C9 counterexample: the claim states that self-originated echoes are
dropped for every inbound event shape, including encrypted payloads.  An
encrypted `new_message` whose `sender_id` equals the local user id is
nevertheless dispatched to `processEncryptedMessage` (forwarded and applied
to state), not dropped — the encrypted branch performs no sender check. -/
theorem c9_counterexample :
    SocketService.onNewMessage (some "me")
        { id := some "m1", chat_room_id := some "c1", iv := some [1],
          ciphertext := some [2], tag := some [3],
          senderPublicKey := some "me", sender_id := some "me" } =
      NewMessageAction.processEncrypted ∧
    SocketService.onNewMessage (some "me")
        { id := some "m1", chat_room_id := some "c1", iv := some [1],
          ciphertext := some [2], tag := some [3],
          senderPublicKey := some "me", sender_id := some "me" } ≠
      NewMessageAction.dropOwn :=
  ⟨rfl, by decide⟩

/-- C9 amended: self-originated echoes are dropped before forwarding for
plaintext chat messages (`sender_id` check) and for community posts
(`author_public_key` check), but encrypted message payloads are dispatched
for processing without any self-identity check. -/
theorem c9_dedup_amended (u : String) (m : InboundMessage) (p : InboundPost) :
    (m.id.isSome ∧ m.chat_room_id.isSome →
      ¬ (m.iv.isSome ∧ m.ciphertext.isSome ∧ m.tag.isSome ∧
          m.senderPublicKey.isSome) →
      m.sender_id = some u →
      SocketService.onNewMessage (some u) m = .dropOwn) ∧
    (m.id.isSome ∧ m.chat_room_id.isSome →
      m.iv.isSome ∧ m.ciphertext.isSome ∧ m.tag.isSome ∧
        m.senderPublicKey.isSome →
      SocketService.onNewMessage (some u) m = .processEncrypted) ∧
    (p.id.isSome ∧ p.community_id.isSome → p.author_public_key = some u →
      SocketService.onCommunityPostReceived (some u) p = .dropOwn) := by
  refine ⟨?_, ?_, ?_⟩
  · intro hvalid henc hsender
    simp [SocketService.onNewMessage, hvalid, henc, hsender]
  · intro hvalid henc
    simp [SocketService.onNewMessage, hvalid, henc]
  · intro hvalid hauthor
    simp [SocketService.onCommunityPostReceived, hvalid, hauthor]

/-- Witness for C9's amended statement: a plaintext own-echo message and an
own community post are both dropped. -/
theorem c9_witness :
    SocketService.onNewMessage (some "me")
        { id := some "m2", chat_room_id := some "c1", iv := none,
          ciphertext := none, tag := none, senderPublicKey := none,
          sender_id := some "me" } = NewMessageAction.dropOwn ∧
    SocketService.onCommunityPostReceived (some "me")
        { id := some "p2", community_id := some "c1",
          author_public_key := some "me" } = PostAction.dropOwn :=
  ⟨(c9_dedup_amended "me"
      { id := some "m2", chat_room_id := some "c1", iv := none,
        ciphertext := none, tag := none, senderPublicKey := none,
        sender_id := some "me" }
      { id := some "p2", community_id := some "c1",
        author_public_key := some "me" }).1 (by decide) (by decide) rfl,
   (c9_dedup_amended "me"
      { id := some "m2", chat_room_id := some "c1", iv := none,
        ciphertext := none, tag := none, senderPublicKey := none,
        sender_id := some "me" }
      { id := some "p2", community_id := some "c1",
        author_public_key := some "me" }).2.2 (by decide) rfl⟩

end Dapp
